import Mathlib

/-!
Verification of the real-time messaging relay of the Playsphere repository.

The relay lives in src/server/websocket.ts (function setupWebSocket) with its
persistence helpers in src/server/storage.ts (createMessage, isGroupMember,
getGroupMembers, toggleIdeaVote).  We embed the relevant state shallowly:

* a persisted Message row becomes the structure MessageRow (the column names of
  the messages table in src/shared/schema.ts);
* the in-memory registry (the Map called clients, user id to socket) and the
  per-connection closure variable userId become association lists keyed by
  numeric ids; socket handles are numbers, and the set of sockets whose
  readyState is OPEN is a list;
* every ws.send call is recorded in an append-only log of (socket, frame)
  pairs, so delivery claims become statements about the log's suffix;
* timestamps are taken as an input of the handler, standing for the value of
  the expression returning the current date at the moment the frame is
  handled;
* storage calls become pure functions on a DB record: users holds the user
  ids of the users table (primary key, hence expected to be duplicate free),
  groupMembers the (groupId, userId) pairs of the group_members table.

All definitions are executable and translated from the TypeScript source.
-/

namespace Playsphere

/-- A persisted row of the messages table (src/shared/schema.ts lines 46-61).
The type column is the content-type tag ("text" by default). -/
structure MessageRow where
  id : Nat
  fromUserId : Nat
  toUserId : Option Nat
  groupId : Option Nat
  content : String
  timestamp : Nat
  isRead : Bool
  readAt : Option Nat
  type : String
  deriving DecidableEq, Repr

/-- The argument of storage.createMessage: a Message row without its id. -/
structure InsertMessage where
  fromUserId : Nat
  toUserId : Option Nat
  groupId : Option Nat
  content : String
  timestamp : Nat
  isRead : Bool
  readAt : Option Nat
  type : String
  deriving DecidableEq, Repr

/-- The persistence state visible to the relay: the messages table with its
serial id counter, the user ids of the users table, and the (groupId, userId)
rows of the group_members table. -/
structure DB where
  messages : List MessageRow
  nextMessageId : Nat
  users : List Nat
  groupMembers : List (Nat × Nat)
  deriving DecidableEq, Repr

/-- storage.createMessage (src/server/storage.ts lines 211-217): insert the
row, letting the database generate the serial id, and return the created row
together with the updated state. -/
def createMessage (db : DB) (m : InsertMessage) : MessageRow × DB :=
  let row : MessageRow :=
    { id := db.nextMessageId, fromUserId := m.fromUserId, toUserId := m.toUserId,
      groupId := m.groupId, content := m.content, timestamp := m.timestamp,
      isRead := m.isRead, readAt := m.readAt, type := m.type }
  (row, { db with messages := db.messages ++ [row],
                  nextMessageId := db.nextMessageId + 1 })

/-- storage.isGroupMember (src/server/storage.ts lines 366-378): whether a
group_members row with this (groupId, userId) pair exists. -/
def isGroupMember (db : DB) (groupId userId : Nat) : Bool :=
  db.groupMembers.any (fun p => p.1 == groupId && p.2 == userId)

/-- storage.getGroupMembers (src/server/storage.ts lines 311-327): select the
userIds of the group's membership rows, then select the users whose id is in
that list (so each member user is returned once, in users-table order). -/
def getGroupMembers (db : DB) (groupId : Nat) : List Nat :=
  let memberIds := (db.groupMembers.filter (fun p => p.1 == groupId)).map (fun p => p.2)
  db.users.filter (fun u => memberIds.contains u)

/-- Map.set on the clients registry: replaces any prior entry for the key. -/
def regSet (r : List (Nat × Nat)) (k v : Nat) : List (Nat × Nat) :=
  (k, v) :: r.filter (fun p => p.1 != k)

/-- Map.get on the clients registry. -/
def regGet (r : List (Nat × Nat)) (k : Nat) : Option Nat :=
  (r.find? (fun p => p.1 == k)).map (fun p => p.2)

/-- Map.delete on the clients registry. -/
def regDelete (r : List (Nat × Nat)) (k : Nat) : List (Nat × Nat) :=
  r.filter (fun p => p.1 != k)

/-- A frame pushed by the server to a socket.  The direct-message path sends
the persisted row as-is (so its wire tag is the row's content-type field); the
group path overrides the tag with "groupMessage"; plus error and typing
frames. -/
inductive WireFrame where
  | msgRow (m : MessageRow)
  | groupMsg (m : MessageRow)
  | error (msg : String)
  | typing (fromUserId toUserId : Nat) (isTyping : Bool)
  | groupTyping (fromUserId groupId : Nat) (isTyping : Bool)
  deriving DecidableEq, Repr

/-- The type field of the JSON object as it appears on the wire. -/
def WireFrame.tag : WireFrame → String
  | .msgRow m => m.type
  | .groupMsg _ => "groupMessage"
  | .error _ => "error"
  | .typing _ _ _ => "typing"
  | .groupTyping _ _ _ => "groupTyping"

/-- An inbound client frame, the WSMessage union of src/server/websocket.ts
lines 6-34. -/
inductive WSMessage where
  | message (fromUserId toUserId : Nat) (content : String)
  | groupMessage (fromUserId groupId : Nat) (content : String)
  | typing (fromUserId toUserId : Nat) (isTyping : Bool)
  | groupTyping (fromUserId groupId : Nat) (isTyping : Bool)
  deriving DecidableEq, Repr

/-- The fromUserId field, present on every frame variant. -/
def WSMessage.sender : WSMessage → Nat
  | .message f _ _ => f
  | .groupMessage f _ _ => f
  | .typing f _ _ => f
  | .groupTyping f _ _ => f

/-- The whole state of the relay process: the clients Map, the per-connection
closure variable userId (kept per socket), the set of sockets whose readyState
is OPEN, the persistence state, and the log of every frame pushed so far. -/
structure RelayState where
  clients : List (Nat × Nat)
  bound : List (Nat × Nat)
  openSockets : List Nat
  db : DB
  sent : List (Nat × WireFrame)
  deriving DecidableEq, Repr

/-- ws.send: append the frame to the log. -/
def pushFrame (st : RelayState) (sock : Nat) (f : WireFrame) : RelayState :=
  { st with sent := st.sent ++ [(sock, f)] }

/-- The recurring delivery idiom of websocket.ts: look the user up in the
clients Map and send only when the socket's readyState is OPEN. -/
def sendToUserIfOpen (st : RelayState) (userId : Nat) (f : WireFrame) : RelayState :=
  match regGet st.clients userId with
  | some sock => if st.openSockets.contains sock then pushFrame st sock f else st
  | none => st

/-- The registration block of src/server/websocket.ts lines 48-51: any frame
carrying a truthy fromUserId binds the connection's userId variable and sets
the clients Map entry (a fromUserId of 0 is falsy in JavaScript, so it
neither registers nor binds). -/
def registerStep (st : RelayState) (ws : Nat) (msg : WSMessage) : RelayState :=
  if msg.sender ≠ 0 then
    { st with clients := regSet st.clients msg.sender ws,
              bound := regSet st.bound ws msg.sender }
  else st

/-- The message handler of src/server/websocket.ts lines 43-169, for one
parsed frame arriving on socket ws at wall-clock time now. -/
def handleFrame (st : RelayState) (ws : Nat) (msg : WSMessage) (now : Nat) : RelayState :=
  let st := registerStep st ws msg
  match msg with
  | .message fromUserId toUserId content =>
      let pair := createMessage st.db
        { fromUserId := fromUserId, toUserId := some toUserId, groupId := none,
          content := content, timestamp := now, isRead := false, readAt := none,
          type := "text" }
      let newMessage := pair.1
      let st := { st with db := pair.2 }
      let st := sendToUserIfOpen st toUserId (.msgRow newMessage)
      pushFrame st ws (.msgRow newMessage)
  | .groupMessage fromUserId groupId content =>
      if isGroupMember st.db groupId fromUserId then
        let pair := createMessage st.db
          { fromUserId := fromUserId, toUserId := none, groupId := some groupId,
            content := content, timestamp := now, isRead := false, readAt := none,
            type := "text" }
        let newMessage := pair.1
        let st := { st with db := pair.2 }
        let members := getGroupMembers st.db groupId
        let st := members.foldl (fun acc m =>
          if m ≠ fromUserId then sendToUserIfOpen acc m (.groupMsg newMessage) else acc) st
        pushFrame st ws (.groupMsg newMessage)
      else
        pushFrame st ws (.error "You are not a member of this group")
  | .typing fromUserId toUserId isTyping =>
      sendToUserIfOpen st toUserId (.typing fromUserId toUserId isTyping)
  | .groupTyping fromUserId groupId isTyping =>
      if isGroupMember st.db groupId fromUserId then
        let members := getGroupMembers st.db groupId
        members.foldl (fun acc m =>
          if m ≠ fromUserId then
            sendToUserIfOpen acc m (.groupTyping fromUserId groupId isTyping)
          else acc) st
      else st

/-- The close handler of src/server/websocket.ts lines 172-176: the socket is
no longer OPEN, and if the connection had bound a userId, that registry entry
is deleted (with no check that it still points at this socket). -/
def handleClose (st : RelayState) (ws : Nat) : RelayState :=
  let st := { st with openSockets := st.openSockets.filter (fun s => s != ws) }
  match regGet st.bound ws with
  | some uid => { st with clients := regDelete st.clients uid }
  | none => st

/-- The frames a single sendToUserIfOpen call appends: one frame when the
user is registered and their socket is OPEN, none otherwise. -/
def deliveries (clients : List (Nat × Nat)) (opens : List Nat) (userId : Nat)
    (f : WireFrame) : List (Nat × WireFrame) :=
  match regGet clients userId with
  | some sock => if opens.contains sock then [(sock, f)] else []
  | none => []

/-- Whether a user is registered with a socket whose readyState is OPEN. -/
def isOnline (clients : List (Nat × Nat)) (opens : List Nat) (userId : Nat) : Bool :=
  match regGet clients userId with
  | some sock => opens.contains sock
  | none => false

/-- The socket a user is registered with (defaulting to 0 when absent; only
used under an isOnline guard). -/
def sockOf (clients : List (Nat × Nat)) (userId : Nat) : Nat :=
  (regGet clients userId).getD 0

/-- The frames appended by the group fan-out loop over a member list: for
each member other than the sender, the deliveries of one sendToUserIfOpen. -/
def fanoutLog (clients : List (Nat × Nat)) (opens : List Nat) (sender : Nat)
    (f : WireFrame) : List Nat → List (Nat × WireFrame)
  | [] => []
  | m :: ms =>
      (if m ≠ sender then deliveries clients opens m f else []) ++
        fanoutLog clients opens sender f ms

/-- The opening characters of the image-markdown pattern. -/
def imageOpen : List Char := ['!', '[', 'i', 'm', 'a', 'g', 'e', ']', '(']

/-- Whether the character list contains the image-markdown opener followed
later by a closing parenthesis. -/
def hasImageMarkdown : List Char → Bool
  | [] => false
  | c :: rest =>
      if imageOpen.isPrefixOf (c :: rest) then
        ((c :: rest).drop imageOpen.length).any (fun ch => ch == ')')
      else hasImageMarkdown rest

/-- Modelled from the client-side image regex (the pattern matching
exclamation-bracket image markdown with a parenthesised url, used in
src/client/src/components/group-chat.tsx line 499 and the chat components):
the content contains the image-markdown opener followed later by a closing
parenthesis. -/
def isImageMarkdown (s : String) : Bool :=
  hasImageMarkdown s.data

/-- A row of the ideas table, restricted to the columns toggleIdeaVote
touches: the primary key and the votes counter (an SQL integer, so it can go
below zero). -/
structure IdeaRow where
  id : Nat
  votes : Int
  deriving DecidableEq, Repr

/-- The persistence state of the idea-voting feature: the ideas table and the
(ideaId, userId) rows of the idea_votes table. -/
structure IdeaDB where
  ideas : List IdeaRow
  ideaVotes : List (Nat × Nat)
  deriving DecidableEq, Repr

/-- Whether an idea_votes row for this (ideaId, userId) pair exists — the
existing-vote select at the top of toggleIdeaVote. -/
def hasVote (db : IdeaDB) (ideaId userId : Nat) : Bool :=
  db.ideaVotes.any (fun p => p.1 == ideaId && p.2 == userId)

/-- The row effect of the SQL update decrementing votes where id matches. -/
def decVote (ideaId : Nat) (r : IdeaRow) : IdeaRow :=
  if r.id = ideaId then { r with votes := r.votes - 1 } else r

/-- The row effect of the SQL update incrementing votes where id matches. -/
def incVote (ideaId : Nat) (r : IdeaRow) : IdeaRow :=
  if r.id = ideaId then { r with votes := r.votes + 1 } else r

/-- storage.toggleIdeaVote (src/server/storage.ts lines 671-747), as one
transaction: if a vote row exists it is deleted and the idea's votes counter
decremented, otherwise a vote row is inserted and the counter incremented;
then the idea is re-read, and if it does not exist the transaction throws
("Idea not found") and rolls back, which the embedding renders as an error
result leaving the caller's state unchanged. -/
def toggleIdeaVote (db : IdeaDB) (ideaId userId : Nat) : Except String IdeaDB :=
  let db1 :=
    if hasVote db ideaId userId then
      { db with
        ideaVotes := db.ideaVotes.filter (fun p => !(p.1 == ideaId && p.2 == userId)),
        ideas := db.ideas.map (decVote ideaId) }
    else
      { db with
        ideaVotes := db.ideaVotes ++ [(ideaId, userId)],
        ideas := db.ideas.map (incVote ideaId) }
  match db1.ideas.find? (fun r => r.id == ideaId) with
  | some _ => .ok db1
  | none => .error "Idea not found"

/-- The votes counter of the idea with the given id (none if absent). -/
def votesOf (db : IdeaDB) (ideaId : Nat) : Option Int :=
  (db.ideas.find? (fun r => r.id == ideaId)).map (fun r => r.votes)

/-- The insert literal of the direct-message branch (websocket.ts lines
58-67), with the id the database will generate for it. -/
def directRow (db : DB) (u t : Nat) (c : String) (now : Nat) : MessageRow :=
  { id := db.nextMessageId, fromUserId := u, toUserId := some t, groupId := none,
    content := c, timestamp := now, isRead := false, readAt := none, type := "text" }

/-- The insert literal of the group-message branch (websocket.ts lines
93-102), with the id the database will generate for it. -/
def groupRow (db : DB) (u g : Nat) (c : String) (now : Nat) : MessageRow :=
  { id := db.nextMessageId, fromUserId := u, toUserId := none, groupId := some g,
    content := c, timestamp := now, isRead := false, readAt := none, type := "text" }

/-- A small concrete world used to evaluate the theorems: users 1, 2, 3 are
the members of group 7; user 5 exists on the wire but has no membership. -/
def demoDB : DB :=
  { messages := [], nextMessageId := 1, users := [1, 2, 3],
    groupMembers := [(7, 1), (7, 2), (7, 3)] }

/-- A concrete relay state over demoDB: users 1, 2, 3 are registered on open
sockets 11, 12, 13; socket 14 and 15 are also open but unregistered. -/
def demoState : RelayState :=
  { clients := [(1, 11), (2, 12), (3, 13)],
    bound := [(11, 1), (12, 2), (13, 3)],
    openSockets := [11, 12, 13, 14, 15],
    db := demoDB, sent := [] }

/-- A concrete relay state with no registrations, used for the reconnect
scenario: sockets 5 and 9 are open. -/
def idleState : RelayState :=
  { clients := [], bound := [], openSockets := [5, 9], db := demoDB, sent := [] }

/-- A concrete idea store: idea 4 with 10 votes, already voted by user 2;
idea 6 with 0 votes. -/
def demoIdeaDB : IdeaDB :=
  { ideas := [{ id := 4, votes := 10 }, { id := 6, votes := 0 }],
    ideaVotes := [(4, 2)] }

/-! ### Registry and registration lemmas -/

theorem regGet_regSet_self (r : List (Nat × Nat)) (k v : Nat) :
    regGet (regSet r k v) k = some v := by
  simp [regGet, regSet]

theorem find?_filter_other_key (r : List (Nat × Nat)) (k t : Nat) (h : t ≠ k) :
    List.find? (fun p => p.1 == t) (r.filter (fun p => p.1 != k))
      = List.find? (fun p => p.1 == t) r := by
  induction r with
  | nil => rfl
  | cons a r ih =>
      by_cases hat : a.1 = t
      · have h1 : (a.1 != k) = true := by simp [hat, h]
        simp [List.filter_cons, h1, List.find?_cons, hat, h]
      · have h2 : (a.1 == t) = false := by simp [hat]
        by_cases hak : a.1 = k
        · have h1 : (a.1 != k) = false := by simp [hak]
          simp [List.filter_cons, h1, List.find?_cons, h2, ih]
        · have h1 : (a.1 != k) = true := by simp [hak]
          simp [List.filter_cons, h1, List.find?_cons, h2, ih]

theorem regGet_regSet_ne (r : List (Nat × Nat)) (k v t : Nat) (h : t ≠ k) :
    regGet (regSet r k v) t = regGet r t := by
  unfold regGet regSet
  have hk : (k == t) = false := by simp [Ne.symm h]
  rw [List.find?_cons]
  simp only [hk, Bool.false_eq_true, if_false]
  rw [find?_filter_other_key r k t h]

theorem regGet_regDelete_self (r : List (Nat × Nat)) (k : Nat) :
    regGet (regDelete r k) k = none := by
  unfold regGet regDelete
  have : List.find? (fun p => p.1 == k) (r.filter (fun p => p.1 != k)) = none := by
    rw [List.find?_eq_none]
    intro p hp
    have h2 := List.of_mem_filter hp
    simp only [bne_iff_ne, ne_eq] at h2
    simp [h2]
  rw [this]
  rfl

theorem registerStep_db (st : RelayState) (ws : Nat) (msg : WSMessage) :
    (registerStep st ws msg).db = st.db := by
  unfold registerStep; split <;> rfl

theorem registerStep_sent (st : RelayState) (ws : Nat) (msg : WSMessage) :
    (registerStep st ws msg).sent = st.sent := by
  unfold registerStep; split <;> rfl

theorem registerStep_openSockets (st : RelayState) (ws : Nat) (msg : WSMessage) :
    (registerStep st ws msg).openSockets = st.openSockets := by
  unfold registerStep; split <;> rfl

theorem registerStep_regGet_ne (st : RelayState) (ws : Nat) (msg : WSMessage)
    (t : Nat) (h : t ≠ msg.sender) :
    regGet (registerStep st ws msg).clients t = regGet st.clients t := by
  unfold registerStep; split
  · exact regGet_regSet_ne _ _ _ _ h
  · rfl

/-! ### Delivery and fan-out lemmas -/

theorem sendToUserIfOpen_eq (st : RelayState) (u : Nat) (f : WireFrame) :
    sendToUserIfOpen st u f
      = { st with sent := st.sent ++ deliveries st.clients st.openSockets u f } := by
  unfold sendToUserIfOpen deliveries pushFrame
  cases regGet st.clients u with
  | none => simp
  | some sock => by_cases ho : sock ∈ st.openSockets <;> simp [ho]

theorem foldl_fanout (u : Nat) (f : WireFrame) (members : List Nat) (st : RelayState) :
    members.foldl (fun acc m => if m ≠ u then sendToUserIfOpen acc m f else acc) st
      = { st with sent := st.sent ++ fanoutLog st.clients st.openSockets u f members } := by
  induction members generalizing st with
  | nil => simp [fanoutLog]
  | cons m ms ih =>
      simp only [List.foldl_cons, fanoutLog]
      by_cases h : m = u
      · simp only [h, ne_eq, not_true_eq_false, if_false, ih]
        simp
      · have h' : m ≠ u := h
        rw [if_pos h', sendToUserIfOpen_eq, ih]
        simp [h', List.append_assoc]

theorem fanoutLog_eq (clients : List (Nat × Nat)) (opens : List Nat) (sender : Nat)
    (f : WireFrame) (ms : List Nat) :
    fanoutLog clients opens sender f ms
      = (ms.filter (fun m => (m != sender) && isOnline clients opens m)).map
          (fun m => (sockOf clients m, f)) := by
  induction ms with
  | nil => rfl
  | cons m ms ih =>
      simp only [fanoutLog, List.filter_cons]
      by_cases h : m = sender
      · simp [h, ih]
      · have hne : (m != sender) = true := by simp [h]
        rw [if_pos h, ih]
        unfold deliveries isOnline sockOf
        cases hr : regGet clients m with
        | none => simp [hr, hne]
        | some sock =>
            by_cases ho : sock ∈ opens <;> simp [hr, ho, hne]

/-! ### Per-branch characterizations of the frame handler -/

theorem handleFrame_message_eq (st : RelayState) (ws u t : Nat) (c : String) (now : Nat) :
    handleFrame st ws (.message u t c) now
      = (let st1 := registerStep st ws (.message u t c)
         let row := directRow st1.db u t c now
         { st1 with
           db := { st1.db with messages := st1.db.messages ++ [row],
                               nextMessageId := st1.db.nextMessageId + 1 },
           sent := st1.sent ++ deliveries st1.clients st1.openSockets t (.msgRow row)
                     ++ [(ws, .msgRow row)] }) := by
  simp only [handleFrame, createMessage, directRow]
  rw [sendToUserIfOpen_eq]
  simp [pushFrame, List.append_assoc]

theorem handleFrame_groupMessage_member_eq (st : RelayState) (ws u g : Nat)
    (c : String) (now : Nat) (h : isGroupMember st.db g u = true) :
    handleFrame st ws (.groupMessage u g c) now
      = (let st1 := registerStep st ws (.groupMessage u g c)
         let row := groupRow st1.db u g c now
         { st1 with
           db := { st1.db with messages := st1.db.messages ++ [row],
                               nextMessageId := st1.db.nextMessageId + 1 },
           sent := st1.sent
             ++ fanoutLog st1.clients st1.openSockets u (.groupMsg row)
                  (getGroupMembers st1.db g)
             ++ [(ws, .groupMsg row)] }) := by
  have h' : isGroupMember (registerStep st ws (.groupMessage u g c)).db g u = true := by
    rw [registerStep_db]; exact h
  simp only [handleFrame, createMessage, groupRow, h', if_true]
  rw [foldl_fanout]
  simp [pushFrame, List.append_assoc, getGroupMembers]

theorem handleFrame_groupMessage_nonmember_eq (st : RelayState) (ws u g : Nat)
    (c : String) (now : Nat) (h : isGroupMember st.db g u = false) :
    handleFrame st ws (.groupMessage u g c) now
      = pushFrame (registerStep st ws (.groupMessage u g c)) ws
          (.error "You are not a member of this group") := by
  have h' : isGroupMember (registerStep st ws (.groupMessage u g c)).db g u = false := by
    rw [registerStep_db]; exact h
  simp only [handleFrame, h', Bool.false_eq_true, if_false]

theorem handleFrame_typing_eq (st : RelayState) (ws u t : Nat) (b : Bool) (now : Nat) :
    handleFrame st ws (.typing u t b) now
      = (let st1 := registerStep st ws (.typing u t b)
         { st1 with sent := st1.sent
             ++ deliveries st1.clients st1.openSockets t (.typing u t b) }) := by
  simp only [handleFrame]
  rw [sendToUserIfOpen_eq]

theorem handleFrame_groupTyping_member_eq (st : RelayState) (ws u g : Nat)
    (b : Bool) (now : Nat) (h : isGroupMember st.db g u = true) :
    handleFrame st ws (.groupTyping u g b) now
      = (let st1 := registerStep st ws (.groupTyping u g b)
         let log := fanoutLog st1.clients st1.openSockets u (.groupTyping u g b)
           (getGroupMembers st1.db g)
         { st1 with sent := st1.sent ++ log }) := by
  have h' : isGroupMember (registerStep st ws (.groupTyping u g b)).db g u = true := by
    rw [registerStep_db]; exact h
  simp only [handleFrame, h', if_true]
  rw [foldl_fanout]

theorem handleFrame_groupTyping_nonmember_eq (st : RelayState) (ws u g : Nat)
    (b : Bool) (now : Nat) (h : isGroupMember st.db g u = false) :
    handleFrame st ws (.groupTyping u g b) now
      = registerStep st ws (.groupTyping u g b) := by
  have h' : isGroupMember (registerStep st ws (.groupTyping u g b)).db g u = false := by
    rw [registerStep_db]; exact h
  simp only [handleFrame, h', Bool.false_eq_true, if_false]

theorem handleFrame_clients (st : RelayState) (ws : Nat) (msg : WSMessage) (now : Nat) :
    (handleFrame st ws msg now).clients = (registerStep st ws msg).clients := by
  cases msg with
  | message u t c => rw [handleFrame_message_eq]
  | groupMessage u g c =>
      cases h : isGroupMember st.db g u with
      | true => rw [handleFrame_groupMessage_member_eq st ws u g c now h]
      | false => rw [handleFrame_groupMessage_nonmember_eq st ws u g c now h]; rfl
  | typing u t b => rw [handleFrame_typing_eq]
  | groupTyping u g b =>
      cases h : isGroupMember st.db g u with
      | true => rw [handleFrame_groupTyping_member_eq st ws u g b now h]
      | false => rw [handleFrame_groupTyping_nonmember_eq st ws u g b now h]

theorem handleFrame_openSockets (st : RelayState) (ws : Nat) (msg : WSMessage) (now : Nat) :
    (handleFrame st ws msg now).openSockets = st.openSockets := by
  rw [← registerStep_openSockets st ws msg]
  cases msg with
  | message u t c => rw [handleFrame_message_eq]
  | groupMessage u g c =>
      cases h : isGroupMember st.db g u with
      | true => rw [handleFrame_groupMessage_member_eq st ws u g c now h]
      | false => rw [handleFrame_groupMessage_nonmember_eq st ws u g c now h]; rfl
  | typing u t b => rw [handleFrame_typing_eq]
  | groupTyping u g b =>
      cases h : isGroupMember st.db g u with
      | true => rw [handleFrame_groupTyping_member_eq st ws u g b now h]
      | false => rw [handleFrame_groupTyping_nonmember_eq st ws u g b now h]

/-- The frames a direct-message frame appends when the recipient is
registered on an open socket and differs from the sender: one copy to the
recipient's socket, one confirmation to the sender's socket. -/
theorem message_delta (st : RelayState) (ws u t : Nat) (c : String) (now : Nat)
    (sock : Nat) (hne : t ≠ u) (hreg : regGet st.clients t = some sock)
    (hopen : sock ∈ st.openSockets) :
    (handleFrame st ws (.message u t c) now).sent
      = st.sent ++ [(sock, .msgRow (directRow st.db u t c now)),
                    (ws, .msgRow (directRow st.db u t c now))] := by
  rw [handleFrame_message_eq]
  simp only [registerStep_sent, registerStep_openSockets, registerStep_db]
  have hreg' : regGet (registerStep st ws (.message u t c)).clients t = some sock := by
    rw [registerStep_regGet_ne st ws (.message u t c) t hne]
    exact hreg
  unfold deliveries
  rw [hreg']
  simp [hopen]

/-! ### The claims -/

/-- C1: for a group-message frame whose sender is not a member of the target
group, the relay creates no Message row and performs no fan-out: the frame
log grows by exactly one error frame ("You are not a member of this group")
on the sender's socket — no other socket receives anything — and the
persistence state is unchanged. -/
theorem groupMessage_nonmember_error_only (st : RelayState) (ws u g : Nat)
    (c : String) (now : Nat) (h : isGroupMember st.db g u = false) :
    (handleFrame st ws (.groupMessage u g c) now).sent
        = st.sent ++ [(ws, .error "You are not a member of this group")] ∧
    (handleFrame st ws (.groupMessage u g c) now).db = st.db := by
  rw [handleFrame_groupMessage_nonmember_eq st ws u g c now h]
  exact ⟨by simp [pushFrame, registerStep_sent],
         by simp [pushFrame, registerStep_db]⟩

/-- Witness for C1: non-member user 5 sends to group 7 from socket 15. -/
theorem groupMessage_nonmember_error_only_witness :
    (handleFrame demoState 15 (.groupMessage 5 7 "hi") 0).sent
        = demoState.sent ++ [(15, .error "You are not a member of this group")] ∧
    (handleFrame demoState 15 (.groupMessage 5 7 "hi") 0).db = demoState.db :=
  groupMessage_nonmember_error_only demoState 15 5 7 "hi" 0 (by decide)

/-- C7: a group-typing frame whose sender is not a member of the target group
is silently dropped: no frame is pushed to any socket — in particular no
error frame to the sender, unlike the group-message path — and nothing is
persisted. -/
theorem groupTyping_nonmember_silently_dropped (st : RelayState) (ws u g : Nat)
    (b : Bool) (now : Nat) (h : isGroupMember st.db g u = false) :
    (handleFrame st ws (.groupTyping u g b) now).sent = st.sent ∧
    (handleFrame st ws (.groupTyping u g b) now).db = st.db := by
  rw [handleFrame_groupTyping_nonmember_eq st ws u g b now h]
  exact ⟨registerStep_sent _ _ _, registerStep_db _ _ _⟩

/-- Witness for C7: non-member user 5 sends a typing update for group 7. -/
theorem groupTyping_nonmember_silently_dropped_witness :
    (handleFrame demoState 15 (.groupTyping 5 7 true) 0).sent = demoState.sent ∧
    (handleFrame demoState 15 (.groupTyping 5 7 true) 0).db = demoState.db :=
  groupTyping_nonmember_silently_dropped demoState 15 5 7 true 0 (by decide)

/-- C4 counterexample: socket 5 binds user 1, socket 9 then re-registers
user 1 (the registry points at the newer socket 9), and then socket 5
closes: the close handler deletes the registry entry for user 1 even though
it did not point at the closing socket, so the newer registration is lost —
the claim says it would be left intact. -/
theorem close_removes_newer_registration :
    regGet (handleFrame (handleFrame idleState 5 (.message 1 2 "a") 0)
              9 (.message 1 2 "b") 1).clients 1 = some 9 ∧
    regGet (handleClose (handleFrame (handleFrame idleState 5 (.message 1 2 "a") 0)
              9 (.message 1 2 "b") 1) 5).clients 1 = none := by
  constructor <;> decide

/-- C4 (amended): when a socket closes, if a user id was bound to that
connection, the registry entry for that user id is removed unconditionally —
with no check that it still points at the closing socket, so a newer
registration of the same user id by another socket is removed too. -/
theorem close_unregisters_bound_user (st : RelayState) (ws uid : Nat)
    (h : regGet st.bound ws = some uid) :
    regGet (handleClose st ws).clients uid = none := by
  unfold handleClose
  simp only [h]
  exact regGet_regDelete_self st.clients uid

/-- Witness for the amended C4: closing socket 12 (bound to user 2) removes
user 2's registry entry. -/
theorem close_unregisters_bound_user_witness :
    regGet (handleClose demoState 12).clients 2 = none :=
  close_unregisters_bound_user demoState 12 2 (by decide)

/-- C2 counterexample: user 2 is registered on the open socket 12 and user 1
sends a direct-message frame; socket 12 receives exactly one frame, but its
wire type field is "text" (the persisted content-type, sent unmodified by
the relay), not "message" as the claim states. -/
theorem direct_message_frame_not_tagged_message :
    ((handleFrame demoState 11 (.message 1 2 "hello") 0).sent.filter
        (fun p => p.1 == 12)).map (fun p => p.2.tag) = ["text"] ∧
    "text" ≠ "message" := by
  constructor
  · decide
  · decide

/-- C2 (amended): for every direct-message frame sent while the recipient's
user id is registered with an open socket, the recipient's socket receives
exactly one frame carrying the persisted message — whose content equals the
sent content but whose type field is the content-type "text", not "message"
— and the sender's socket receives the same persisted frame as
confirmation. -/
theorem direct_message_delivered_and_echoed (st : RelayState) (ws u t : Nat)
    (c : String) (now : Nat) (sock : Nat) (hne : t ≠ u)
    (hreg : regGet st.clients t = some sock) (hopen : sock ∈ st.openSockets) :
    (handleFrame st ws (.message u t c) now).sent
      = st.sent ++ [(sock, .msgRow (directRow st.db u t c now)),
                    (ws, .msgRow (directRow st.db u t c now))] ∧
    (directRow st.db u t c now).content = c ∧
    (WireFrame.msgRow (directRow st.db u t c now)).tag = "text" :=
  ⟨message_delta st ws u t c now sock hne hreg hopen, rfl, rfl⟩

/-- Witness for the amended C2: user 1 (socket 11) sends "hello" to user 2,
registered on open socket 12. -/
theorem direct_message_delivered_and_echoed_witness :
    (handleFrame demoState 11 (.message 1 2 "hello") 0).sent
      = demoState.sent
          ++ [(12, .msgRow (directRow demoState.db 1 2 "hello" 0)),
              (11, .msgRow (directRow demoState.db 1 2 "hello" 0))] ∧
    (directRow demoState.db 1 2 "hello" 0).content = "hello" ∧
    (WireFrame.msgRow (directRow demoState.db 1 2 "hello" 0)).tag = "text" :=
  direct_message_delivered_and_echoed demoState 11 1 2 "hello" 0 12
    (by decide) (by decide) (by decide)

/-- C5: a frame from a second socket carrying an already-registered user id
replaces the prior registry entry (last writer wins): afterwards the lookup
for that user yields the second socket, and a subsequent direct message to
that user is routed to the second socket only (plus the sender's own
confirmation), so the first socket no longer receives routed frames for that
user. -/
theorem register_last_writer_wins (st : RelayState) (ws2 : Nat) (msg : WSMessage)
    (now : Nat) (h0 : msg.sender ≠ 0) (sws s : Nat) (c : String) (now2 : Nat)
    (hs : s ≠ msg.sender) (hopen : ws2 ∈ st.openSockets) :
    regGet (handleFrame st ws2 msg now).clients msg.sender = some ws2 ∧
    (handleFrame (handleFrame st ws2 msg now) sws (.message s msg.sender c) now2).sent
      = (handleFrame st ws2 msg now).sent
        ++ [(ws2, .msgRow (directRow (handleFrame st ws2 msg now).db s msg.sender c now2)),
            (sws, .msgRow (directRow (handleFrame st ws2 msg now).db s msg.sender c now2))] := by
  have hc : regGet (handleFrame st ws2 msg now).clients msg.sender = some ws2 := by
    rw [handleFrame_clients]
    unfold registerStep
    rw [if_pos h0]
    exact regGet_regSet_self st.clients msg.sender ws2
  refine ⟨hc, ?_⟩
  apply message_delta
  · exact Ne.symm hs
  · exact hc
  · rw [handleFrame_openSockets]
    exact hopen

/-- Witness for C5: user 2 (previously on socket 12) re-registers via a frame
from socket 14; a direct message from user 1 (socket 11) to user 2 is then
delivered to socket 14, not 12. -/
theorem register_last_writer_wins_witness :
    regGet (handleFrame demoState 14 (.typing 2 3 true) 0).clients 2 = some 14 ∧
    (handleFrame (handleFrame demoState 14 (.typing 2 3 true) 0)
        11 (.message 1 2 "y") 1).sent
      = (handleFrame demoState 14 (.typing 2 3 true) 0).sent
        ++ [(14, .msgRow (directRow (handleFrame demoState 14 (.typing 2 3 true) 0).db
                1 2 "y" 1)),
            (11, .msgRow (directRow (handleFrame demoState 14 (.typing 2 3 true) 0).db
                1 2 "y" 1))] :=
  register_last_writer_wins demoState 14 (.typing 2 3 true) 0 (by decide)
    11 1 "y" 1 (by decide) (by decide)

/-- C6: every Message row the relay creates has exactly one of recipient user
id and group id set, in the direction of the frame that created it: a
direct-message frame yields a row with toUserId set and groupId null, a
group-message frame yields a row with groupId set and toUserId null, and
typing frames yield no rows. -/
theorem relay_rows_have_exactly_one_target (st : RelayState) (ws : Nat)
    (msg : WSMessage) (now : Nat) :
    ∀ m ∈ ((handleFrame st ws msg now).db.messages.drop st.db.messages.length),
      ((∃ t, m.toUserId = some t ∧ m.groupId = none
           ∧ msg = .message m.fromUserId t m.content) ∨
       (∃ g, m.toUserId = none ∧ m.groupId = some g
           ∧ msg = .groupMessage m.fromUserId g m.content)) := by
  cases msg with
  | message u t c =>
      rw [handleFrame_message_eq]
      simp only [registerStep_db]
      intro m hm
      rw [List.drop_left] at hm
      simp only [List.mem_singleton] at hm
      subst hm
      exact Or.inl ⟨t, rfl, rfl, rfl⟩
  | groupMessage u g c =>
      cases h : isGroupMember st.db g u with
      | true =>
          rw [handleFrame_groupMessage_member_eq st ws u g c now h]
          simp only [registerStep_db]
          intro m hm
          rw [List.drop_left] at hm
          simp only [List.mem_singleton] at hm
          subst hm
          exact Or.inr ⟨g, rfl, rfl, rfl⟩
      | false =>
          rw [handleFrame_groupMessage_nonmember_eq st ws u g c now h]
          intro m hm
          simp only [pushFrame, registerStep_db, List.drop_length] at hm
          exact absurd hm (List.not_mem_nil m)
  | typing u t b =>
      rw [handleFrame_typing_eq]
      simp only [registerStep_db]
      intro m hm
      rw [List.drop_length] at hm
      exact absurd hm (List.not_mem_nil m)
  | groupTyping u g b =>
      cases h : isGroupMember st.db g u with
      | true =>
          rw [handleFrame_groupTyping_member_eq st ws u g b now h]
          simp only [registerStep_db]
          intro m hm
          rw [List.drop_length] at hm
          exact absurd hm (List.not_mem_nil m)
      | false =>
          rw [handleFrame_groupTyping_nonmember_eq st ws u g b now h]
          simp only [registerStep_db]
          intro m hm
          rw [List.drop_length] at hm
          exact absurd hm (List.not_mem_nil m)

/-- Witness for C6: the row created by a direct message from user 1 to user 2
has toUserId set and groupId null. -/
theorem relay_rows_have_exactly_one_target_witness :
    ((∃ t, (directRow demoState.db 1 2 "hi" 0).toUserId = some t
         ∧ (directRow demoState.db 1 2 "hi" 0).groupId = none
         ∧ WSMessage.message 1 2 "hi"
             = .message (directRow demoState.db 1 2 "hi" 0).fromUserId t
                 (directRow demoState.db 1 2 "hi" 0).content) ∨
     (∃ g, (directRow demoState.db 1 2 "hi" 0).toUserId = none
         ∧ (directRow demoState.db 1 2 "hi" 0).groupId = some g
         ∧ WSMessage.message 1 2 "hi"
             = .groupMessage (directRow demoState.db 1 2 "hi" 0).fromUserId g
                 (directRow demoState.db 1 2 "hi" 0).content)) :=
  relay_rows_have_exactly_one_target demoState 11 (.message 1 2 "hi") 0
    (directRow demoState.db 1 2 "hi" 0) (by decide)

/-- C8 counterexample: the content matches the image-markdown pattern, yet
the relay persists the row with content-type "text", not an image tag. -/
theorem image_markdown_persisted_as_text :
    isImageMarkdown "![image](http://example.com/a.png)" = true ∧
    ((handleFrame demoState 11
        (.message 1 2 "![image](http://example.com/a.png)") 0).db.messages.map
          (fun m => m.type)) = ["text"] ∧
    "text" ≠ "image" := by
  refine ⟨by decide, by decide, by decide⟩

/-- C8 (amended): every direct-message send through the relay persists the
Message row with content-type "text", for every content — the relay applies
no image-markdown detection (the image tag is only attached by other paths). -/
theorem direct_send_content_type_always_text (st : RelayState) (ws u t : Nat)
    (c : String) (now : Nat) :
    (handleFrame st ws (.message u t c) now).db.messages
      = st.db.messages ++ [directRow st.db u t c now] ∧
    (directRow st.db u t c now).type = "text" := by
  refine ⟨?_, rfl⟩
  rw [handleFrame_message_eq]
  simp only [registerStep_db]

/-- C9 counterexample: two direct messages with identical sender, recipient
and content, handled at the same clock reading (two sends within the same
millisecond), produce rows with distinct ids but equal timestamps — the
claim's "distinct timestamps" fails. -/
theorem identical_sends_can_share_timestamp :
    (handleFrame (handleFrame demoState 11 (.message 1 2 "hello") 42)
        11 (.message 1 2 "hello") 42).db.messages.map (fun m => (m.id, m.timestamp))
      = [(1, 42), (2, 42)] := by
  decide

/-- C9 (amended): sending the identical direct message twice produces two
distinct persisted rows with distinct ids and equal content — no
deduplication — whose timestamps are the respective wall-clock readings of
the two sends (so they coincide exactly when the two sends happen at the
same clock reading). -/
theorem two_identical_sends_two_rows (st : RelayState) (ws u t : Nat)
    (c : String) (n1 n2 : Nat) :
    (handleFrame (handleFrame st ws (.message u t c) n1) ws (.message u t c) n2).db.messages
      = st.db.messages
          ++ [directRow st.db u t c n1,
              directRow (handleFrame st ws (.message u t c) n1).db u t c n2] ∧
    (directRow st.db u t c n1).id
        ≠ (directRow (handleFrame st ws (.message u t c) n1).db u t c n2).id ∧
    (directRow st.db u t c n1).content
        = (directRow (handleFrame st ws (.message u t c) n1).db u t c n2).content ∧
    (directRow st.db u t c n1).timestamp = n1 ∧
    (directRow (handleFrame st ws (.message u t c) n1).db u t c n2).timestamp = n2 := by
  have hmsg : (handleFrame st ws (.message u t c) n1).db.messages
      = st.db.messages ++ [directRow st.db u t c n1] := by
    rw [handleFrame_message_eq]; simp only [registerStep_db]
  have hnext : (handleFrame st ws (.message u t c) n1).db.nextMessageId
      = st.db.nextMessageId + 1 := by
    rw [handleFrame_message_eq]; simp only [registerStep_db]
  refine ⟨?_, ?_, rfl, rfl, rfl⟩
  · rw [handleFrame_message_eq]
    simp only [registerStep_db, hmsg, List.append_assoc, List.cons_append,
      List.nil_append]
  · simp only [directRow, hnext]
    omega

/-- C3: a group-message frame from a member of the group is fanned out so
that every other current member who is registered with an open socket
receives exactly one frame tagged groupMessage (the recipient list is
duplicate free), the sender receives exactly one confirmation frame, and the
total number of frames pushed is at most the number of group members.  The
hypotheses on the store are the primary-key uniqueness of the users table
and the foreign key from group_members.userId to users.id. -/
theorem group_message_member_fanout
    (st : RelayState) (ws u g : Nat) (c : String) (now : Nat)
    (clients1 : List (Nat × Nat)) (row : MessageRow) (members recip : List Nat)
    (hclients : clients1 = (registerStep st ws (.groupMessage u g c)).clients)
    (hrow : row = groupRow st.db u g c now)
    (hmembers : members = getGroupMembers st.db g)
    (hrecip : recip = members.filter
      (fun m => (m != u) && isOnline clients1 st.openSockets m))
    (hmem : isGroupMember st.db g u = true)
    (hnodup : st.db.users.Nodup)
    (hfk : ∀ p ∈ st.db.groupMembers, p.2 ∈ st.db.users) :
    (handleFrame st ws (.groupMessage u g c) now).sent
        = st.sent ++ recip.map (fun m => (sockOf clients1 m, WireFrame.groupMsg row))
          ++ [(ws, WireFrame.groupMsg row)] ∧
    recip.Nodup ∧
    recip.length + 1 ≤ members.length := by
  subst hclients hrow hmembers hrecip
  have hu : u ∈ getGroupMembers st.db g := by
    unfold isGroupMember at hmem
    obtain ⟨p, hp, hpq⟩ := List.any_eq_true.mp hmem
    rw [Bool.and_eq_true, beq_iff_eq, beq_iff_eq] at hpq
    obtain ⟨h1, h2⟩ := hpq
    have hu_users : u ∈ st.db.users := h2 ▸ hfk p hp
    have hu_ids : u ∈ (st.db.groupMembers.filter (fun q => q.1 == g)).map
        (fun q => q.2) :=
      List.mem_map.mpr ⟨p, List.mem_filter.mpr ⟨hp, by simp [h1]⟩, h2⟩
    unfold getGroupMembers
    exact List.mem_filter.mpr ⟨hu_users, by simpa using hu_ids⟩
  refine ⟨?_, ?_, ?_⟩
  · rw [handleFrame_groupMessage_member_eq st ws u g c now hmem]
    simp only [registerStep_sent, registerStep_openSockets, registerStep_db]
    rw [fanoutLog_eq]
  · exact List.Nodup.filter _ (List.Nodup.filter _ hnodup)
  · have hlt : (List.filter
        (fun m => (m != u) && isOnline (registerStep st ws (.groupMessage u g c)).clients
          st.openSockets m) (getGroupMembers st.db g)).length
        < (getGroupMembers st.db g).length :=
      List.length_filter_lt_length_iff_exists.mpr ⟨u, hu, by simp⟩
    omega

/-- Witness for C3: member 2 (socket 12) sends to group 7 with members
{1, 2, 3}; members 1 and 3 are registered on open sockets 11 and 13, so they
each receive one groupMessage frame, the sender one confirmation, three
frames in all for a three-member group. -/
theorem group_message_member_fanout_witness :
    (handleFrame demoState 12 (.groupMessage 2 7 "hi") 0).sent
        = demoState.sent
          ++ [1, 3].map (fun m =>
              (sockOf [(2, 12), (1, 11), (3, 13)] m,
               WireFrame.groupMsg (groupRow demoState.db 2 7 "hi" 0)))
          ++ [(12, WireFrame.groupMsg (groupRow demoState.db 2 7 "hi" 0))] ∧
    ([1, 3] : List Nat).Nodup ∧
    ([1, 3] : List Nat).length + 1 ≤ (getGroupMembers demoState.db 7).length :=
  group_message_member_fanout demoState 12 2 7 "hi" 0
    [(2, 12), (1, 11), (3, 13)] (groupRow demoState.db 2 7 "hi" 0)
    (getGroupMembers demoState.db 7) [1, 3]
    (by decide) rfl rfl (by decide) (by decide) (by decide) (by decide)

/-! ### Lemmas about the idea-vote toggle -/

theorem decVote_id (i : Nat) (r : IdeaRow) : (decVote i r).id = r.id := by
  unfold decVote; split <;> rfl

theorem incVote_id (i : Nat) (r : IdeaRow) : (incVote i r).id = r.id := by
  unfold incVote; split <;> rfl

theorem incVote_decVote (i : Nat) (r : IdeaRow) : incVote i (decVote i r) = r := by
  obtain ⟨rid, rv⟩ := r
  unfold incVote decVote
  by_cases h : rid = i <;> simp [h]

theorem decVote_incVote (i : Nat) (r : IdeaRow) : decVote i (incVote i r) = r := by
  obtain ⟨rid, rv⟩ := r
  unfold incVote decVote
  by_cases h : rid = i <;> simp [h]

theorem map_incVote_decVote (l : List IdeaRow) (i : Nat) :
    (l.map (decVote i)).map (incVote i) = l := by
  rw [List.map_map]
  have h : ∀ r ∈ l, (incVote i ∘ decVote i) r = id r := fun r _ => incVote_decVote i r
  rw [List.map_congr_left h, List.map_id]

theorem map_decVote_incVote (l : List IdeaRow) (i : Nat) :
    (l.map (incVote i)).map (decVote i) = l := by
  rw [List.map_map]
  have h : ∀ r ∈ l, (decVote i ∘ incVote i) r = id r := fun r _ => decVote_incVote i r
  rw [List.map_congr_left h, List.map_id]

theorem find?_map_id_preserving (l : List IdeaRow) (i : Nat) (f : IdeaRow → IdeaRow)
    (hf : ∀ r, (f r).id = r.id) :
    (l.map f).find? (fun r => r.id == i) = (l.find? (fun r => r.id == i)).map f := by
  have hfun : ((fun (r : IdeaRow) => r.id == i) ∘ f) = (fun r => r.id == i) := by
    funext r
    simp [Function.comp, hf]
  rw [List.find?_map f l, hfun]

theorem votes_find?_decVote (l : List IdeaRow) (i : Nat) :
    ((l.map (decVote i)).find? (fun r => r.id == i)).map (fun r => r.votes)
      = ((l.find? (fun r => r.id == i)).map (fun r => r.votes)).map
          (fun v => v - 1) := by
  rw [find?_map_id_preserving l i (decVote i) (decVote_id i)]
  cases h : l.find? (fun r => r.id == i) with
  | none => rfl
  | some r =>
      have hr : r.id = i := by simpa using List.find?_some h
      simp [decVote, hr]

theorem votes_find?_incVote (l : List IdeaRow) (i : Nat) :
    ((l.map (incVote i)).find? (fun r => r.id == i)).map (fun r => r.votes)
      = ((l.find? (fun r => r.id == i)).map (fun r => r.votes)).map
          (fun v => v + 1) := by
  rw [find?_map_id_preserving l i (incVote i) (incVote_id i)]
  cases h : l.find? (fun r => r.id == i) with
  | none => rfl
  | some r =>
      have hr : r.id = i := by simpa using List.find?_some h
      simp [incVote, hr]

theorem any_filter_not_self (l : List (Nat × Nat)) (i u : Nat) :
    (l.filter (fun p => !(p.1 == i && p.2 == u))).any
        (fun p => p.1 == i && p.2 == u) = false := by
  rw [Bool.eq_false_iff]
  intro ha
  obtain ⟨p, hp, hpq⟩ := List.any_eq_true.mp ha
  have := List.of_mem_filter hp
  rw [hpq] at this
  exact absurd this (by decide)

theorem hasVote_mem_iff (l : List (Nat × Nat)) (p q : Nat) :
    l.any (fun r => r.1 == p && r.2 == q) = true ↔ (p, q) ∈ l := by
  rw [List.any_eq_true]
  constructor
  · rintro ⟨⟨a, b⟩, hr, hpq⟩
    simp only [Bool.and_eq_true, beq_iff_eq] at hpq
    obtain ⟨h1, h2⟩ := hpq
    subst h1
    subst h2
    exact hr
  · intro h
    exact ⟨(p, q), h, by simp⟩

theorem any_filter_other (l : List (Nat × Nat)) (i u p q : Nat)
    (hpq : (p, q) ≠ (i, u)) :
    (l.filter (fun r => !(r.1 == i && r.2 == u))).any
        (fun r => r.1 == p && r.2 == q)
      = l.any (fun r => r.1 == p && r.2 == q) := by
  apply Bool.eq_iff_iff.mpr
  rw [hasVote_mem_iff, hasVote_mem_iff]
  constructor
  · exact fun h => List.mem_of_mem_filter h
  · intro h
    refine List.mem_filter.mpr ⟨h, ?_⟩
    by_cases hp : p = i
    · have hq : q ≠ u := fun hqe => hpq (by rw [hp, hqe])
      simp [hp, hq]
    · simp [hp]

theorem toggleIdeaVote_eq_delete (db : IdeaDB) (i u : Nat)
    (hv : hasVote db i u = true) (r0 : IdeaRow)
    (hr0 : db.ideas.find? (fun r => r.id == i) = some r0) :
    toggleIdeaVote db i u
      = .ok { ideas := db.ideas.map (decVote i),
              ideaVotes := db.ideaVotes.filter
                (fun p => !(p.1 == i && p.2 == u)) } := by
  simp only [toggleIdeaVote]
  rw [if_pos hv]
  rw [find?_map_id_preserving db.ideas i (decVote i) (decVote_id i), hr0]
  rfl

theorem toggleIdeaVote_eq_insert (db : IdeaDB) (i u : Nat)
    (hv : hasVote db i u = false) (r0 : IdeaRow)
    (hr0 : db.ideas.find? (fun r => r.id == i) = some r0) :
    toggleIdeaVote db i u
      = .ok { ideas := db.ideas.map (incVote i),
              ideaVotes := db.ideaVotes ++ [(i, u)] } := by
  simp only [toggleIdeaVote]
  rw [if_neg (by simp [hv])]
  rw [find?_map_id_preserving db.ideas i (incVote i) (incVote_id i), hr0]
  rfl

/-- C10: for an existing idea, toggleIdeaVote flips the existence of the
(ideaId, userId) vote row and moves the idea's votes counter by exactly one
in the corresponding direction (down when the vote existed, up when it did
not), and calling it twice in succession with no interleaving operations
restores the prior state: every idea's votes counter and the existence of
every vote row are as before the first call. -/
theorem toggleIdeaVote_flips_and_double_restores (db : IdeaDB) (i u : Nat)
    (hex : (db.ideas.find? (fun r => r.id == i)).isSome = true) :
    ∃ db1 db2,
      toggleIdeaVote db i u = .ok db1 ∧
      toggleIdeaVote db1 i u = .ok db2 ∧
      hasVote db1 i u = !hasVote db i u ∧
      votesOf db1 i = (votesOf db i).map
        (fun v => if hasVote db i u then v - 1 else v + 1) ∧
      (∀ j, votesOf db2 j = votesOf db j) ∧
      (∀ p q, hasVote db2 p q = hasVote db p q) := by
  obtain ⟨r0, hr0⟩ := Option.isSome_iff_exists.mp hex
  cases hv : hasVote db i u with
  | true =>
      have h1 := toggleIdeaVote_eq_delete db i u hv r0 hr0
      have hv1 : hasVote (IdeaDB.mk (db.ideas.map (decVote i))
            (db.ideaVotes.filter (fun p => !(p.1 == i && p.2 == u)))) i u = false :=
        any_filter_not_self db.ideaVotes i u
      have hfind1 : (db.ideas.map (decVote i)).find? (fun r => r.id == i)
          = some (decVote i r0) := by
        rw [find?_map_id_preserving db.ideas i (decVote i) (decVote_id i), hr0]
        rfl
      have h2 := toggleIdeaVote_eq_insert _ i u hv1 (decVote i r0) hfind1
      rw [map_incVote_decVote] at h2
      refine ⟨_, _, h1, h2, ?_, ?_, ?_, ?_⟩
      · exact hv1
      · exact votes_find?_decVote db.ideas i
      · intro j
        rfl
      · intro p q
        by_cases hpq : (p, q) = (i, u)
        · have hp : p = i := congrArg Prod.fst hpq
          have hq : q = u := congrArg Prod.snd hpq
          subst hp
          subst hq
          show (db.ideaVotes.filter (fun r => !(r.1 == p && r.2 == q))
              ++ [(p, q)]).any (fun r => r.1 == p && r.2 == q) = hasVote db p q
          rw [hv, List.any_append, any_filter_not_self]
          simp
        · show (db.ideaVotes.filter (fun r => !(r.1 == i && r.2 == u))
              ++ [(i, u)]).any (fun r => r.1 == p && r.2 == q) = hasVote db p q
          rw [List.any_append, any_filter_other db.ideaVotes i u p q hpq]
          have hsingle : ([(i, u)].any (fun r => r.1 == p && r.2 == q)) = false := by
            simp only [List.any_cons, List.any_nil, Bool.or_false]
            by_cases hp : p = i
            · have hq : q ≠ u := fun hqe => hpq (by rw [hp, hqe])
              have hq' : ¬u = q := fun hqe => hq hqe.symm
              simp [hp, hq']
            · have hp' : ¬i = p := fun hpe => hp hpe.symm
              simp [hp']
          rw [hsingle, Bool.or_false]
          rfl
  | false =>
      have h1 := toggleIdeaVote_eq_insert db i u hv r0 hr0
      have hv1 : hasVote (IdeaDB.mk (db.ideas.map (incVote i))
            (db.ideaVotes ++ [(i, u)])) i u = true := by
        show (db.ideaVotes ++ [(i, u)]).any (fun r => r.1 == i && r.2 == u) = true
        rw [List.any_append]
        simp
      have hfind1 : (db.ideas.map (incVote i)).find? (fun r => r.id == i)
          = some (incVote i r0) := by
        rw [find?_map_id_preserving db.ideas i (incVote i) (incVote_id i), hr0]
        rfl
      have h2 := toggleIdeaVote_eq_delete _ i u hv1 (incVote i r0) hfind1
      rw [map_decVote_incVote] at h2
      have hvotes2 : ((db.ideaVotes ++ [(i, u)]).filter
          (fun p => !(p.1 == i && p.2 == u)))
            = db.ideaVotes.filter (fun p => !(p.1 == i && p.2 == u)) := by
        rw [List.filter_append]
        simp
      rw [hvotes2] at h2
      refine ⟨_, _, h1, h2, ?_, ?_, ?_, ?_⟩
      · exact hv1
      · exact votes_find?_incVote db.ideas i
      · intro j
        rfl
      · intro p q
        by_cases hpq : (p, q) = (i, u)
        · have hp : p = i := congrArg Prod.fst hpq
          have hq : q = u := congrArg Prod.snd hpq
          subst hp
          subst hq
          show (db.ideaVotes.filter (fun r => !(r.1 == p && r.2 == q))).any
              (fun r => r.1 == p && r.2 == q) = hasVote db p q
          rw [hv, any_filter_not_self]
        · show (db.ideaVotes.filter (fun r => !(r.1 == i && r.2 == u))).any
              (fun r => r.1 == p && r.2 == q) = hasVote db p q
          rw [any_filter_other db.ideaVotes i u p q hpq]
          rfl

/-- Witness for C10: toggling user 2's existing vote on idea 4 (10 votes)
removes the vote row and decrements to 9; toggling again restores both. -/
theorem toggleIdeaVote_flips_and_double_restores_witness :
    ∃ db1 db2,
      toggleIdeaVote demoIdeaDB 4 2 = .ok db1 ∧
      toggleIdeaVote db1 4 2 = .ok db2 ∧
      hasVote db1 4 2 = !hasVote demoIdeaDB 4 2 ∧
      votesOf db1 4 = (votesOf demoIdeaDB 4).map
        (fun v => if hasVote demoIdeaDB 4 2 then v - 1 else v + 1) ∧
      (∀ j, votesOf db2 j = votesOf demoIdeaDB j) ∧
      (∀ p q, hasVote db2 p q = hasVote demoIdeaDB p q) :=
  toggleIdeaVote_flips_and_double_restores demoIdeaDB 4 2 (by decide)

end Playsphere
